import Mathlib

/-!
Shallow embedding of the `spherement` measurement core
(`src/spherement/workspace.py`): the geometry primitives `Point2d`,
`DrawPoint` and `Point3d`, the `DrawBox` view area and the `Workspace`
state machine, together with theorems checking the specification's claims.

Python floats are modelled as real numbers, so `math.sqrt`, `math.asin`,
`math.atan2` and `math.hypot` become their exact real counterparts.
Operations that can raise in Python (`list.pop()` on an empty list,
`math.sqrt` on a negative argument) are modelled in `Option`, with `none`
standing for the raised fault.
-/

/-- Model of `math.atan2 y x`, modelled as the argument of the complex number `x + y*i`. -/
noncomputable def atan2 (y x : ℝ) : ℝ := Complex.arg ⟨x, y⟩

/-- Model of `math.hypot x y = sqrt (x^2 + y^2)`. -/
noncomputable def hypot (x y : ℝ) : ℝ := Real.sqrt (x ^ 2 + y ^ 2)

/-- A point in the plane with cartesian coordinates (`Point2d` in workspace.py).
The y axis is inverted to match screen coordinates. -/
@[ext]
structure Point2d where
  x : ℝ
  y : ℝ

namespace Point2d

/-- Model of `Point2d.module`. -/
noncomputable def module (p : Point2d) : ℝ := Real.sqrt (p.x ^ 2 + p.y ^ 2)

/-- Model of `Point2d.add_points`: componentwise sum of a list of points. -/
def add_points (ps : List Point2d) : Point2d :=
  ⟨(ps.map Point2d.x).sum, (ps.map Point2d.y).sum⟩

/-- Model of `Point2d.__mul__`: scalar multiplication, componentwise. -/
def mul (p : Point2d) (k : ℝ) : Point2d := ⟨p.x * k, p.y * k⟩

end Point2d

/-- A point on the screen in polar coordinates (`DrawPoint` in workspace.py). -/
@[ext]
structure DrawPoint where
  angle : ℝ
  distance : ℝ

namespace DrawPoint

/-- Model of `DrawPoint.get_indexes`: cartesian coordinates of the point. -/
noncomputable def get_indexes (p : DrawPoint) : ℝ × ℝ :=
  (p.distance * Real.cos p.angle, -p.distance * Real.sin p.angle)

/-- Model of `DrawPoint.from_indexes`: build a DrawPoint from cartesian coordinates,
`DrawPoint(atan2(-y, x), hypot(x, y))`. -/
noncomputable def from_indexes (xy : ℝ × ℝ) : DrawPoint :=
  ⟨atan2 (-xy.2) xy.1, hypot xy.1 xy.2⟩

/-- Model of `DrawPoint.from_point_2d`. -/
noncomputable def from_point_2d (p : Point2d) : DrawPoint := from_indexes (p.x, p.y)

/-- Model of `DrawPoint.__mul__`: scales the distance, keeps the angle. -/
def mul (p : DrawPoint) (k : ℝ) : DrawPoint := ⟨p.angle, p.distance * k⟩

end DrawPoint

/-- Model of `Point2d.from_draw_point`. -/
noncomputable def Point2d.from_draw_point (p : DrawPoint) : Point2d :=
  ⟨p.get_indexes.1, p.get_indexes.2⟩

/-- A point in space with cartesian coordinates (`Point3d` in workspace.py). -/
@[ext]
structure Point3d where
  x : ℝ
  y : ℝ
  z : ℝ

namespace Point3d

/-- Model of `Point3d.distance`. -/
noncomputable def distance (p q : Point3d) : ℝ :=
  Real.sqrt ((p.x - q.x) ^ 2 + (p.y - q.y) ^ 2 + (p.z - q.z) ^ 2)

/-- Model of `Point3d.module`. -/
noncomputable def module (p : Point3d) : ℝ :=
  Real.sqrt (p.x ^ 2 + p.y ^ 2 + p.z ^ 2)

/-- Model of `Point3d.normalize`. -/
noncomputable def normalize (p : Point3d) : Point3d :=
  ⟨p.x / p.module, p.y / p.module, p.z / p.module⟩

/-- Model of `Point3d.get_angle_to`:
`2.0 * asin(self.normalize().distance(p.normalize()) / 2.0)`. -/
noncomputable def get_angle_to (p q : Point3d) : ℝ :=
  2 * Real.arcsin (p.normalize.distance q.normalize / 2)

/-- Dot product of two 3-vectors; used only to state the spec's comparison of
the chord formula with `acos(dot(p1, p2))`. -/
def dot (p q : Point3d) : ℝ := p.x * q.x + p.y * q.y + p.z * q.z

/-- Componentwise scaling of a 3-vector; used only to state scale invariance
of `get_angle_to`. -/
def smul (k : ℝ) (p : Point3d) : Point3d := ⟨k * p.x, k * p.y, k * p.z⟩

end Point3d

/-- The two workflow phases (`Stage` in workspace.py). -/
inductive Stage where
  | ADJUSTMENT
  | MEASUREMENT
deriving DecidableEq

/-- The drawing box of the workspace (`DrawBox` in workspace.py). -/
structure DrawBox where
  top : ℝ
  left : ℝ
  height : ℝ
  width : ℝ
  center : Point2d
  radius : ℝ

/-- Model of `DrawBox.__init__(top, left, width, height)`. -/
noncomputable def DrawBox.init (top left width height : ℝ) : DrawBox :=
  ⟨top, left, height, width, ⟨width / 2, height / 2⟩, min width height / 2⟩

/-- Model of `DrawBox.to_local_coords`. -/
def DrawBox.to_local_coords (b : DrawBox) (coord : ℝ × ℝ) : Point2d :=
  ⟨coord.1 - b.left, coord.2 - b.top⟩

/-- The workspace state (`Workspace` in workspace.py). The pygame image
surface is an opaque handle, modelled as `Option Unit`. -/
structure Workspace where
  area : DrawBox
  image : Option Unit
  scale : ℝ
  view_point : Point2d
  image_offset : Point2d
  points : List DrawPoint
  stage : Stage
  circle_diff : ℝ

/-- The key states read by `move_view` / `adjust_view`
(`pygame.key.get_pressed()`). -/
structure Keys where
  up : Bool
  down : Bool
  left : Bool
  right : Bool
  minus : Bool
  plus : Bool
  lshift : Bool

/-- No key pressed. -/
def noKeys : Keys := ⟨false, false, false, false, false, false, false⟩

/-- The discrete pygame events the workspace reacts to: a left mouse click at
a screen position, a right mouse click, and a RETURN key-down. -/
inductive Event where
  | mouseLeft (pos : ℝ × ℝ)
  | mouseRight
  | keyReturn

namespace Workspace

/-- Model of `Workspace.__init__(padding, side)`. -/
noncomputable def init (padding side : ℝ) : Workspace :=
  { area := DrawBox.init padding padding side side
    image := none
    scale := 1
    view_point := ⟨0, 0⟩
    image_offset := ⟨0, 0⟩
    points := []
    stage := Stage.ADJUSTMENT
    circle_diff := 0 }

/-- Model of `Workspace.set_image`. -/
def set_image (w : Workspace) (img : Unit) : Workspace :=
  { w with image := some img, view_point := ⟨0, 0⟩, scale := 1 }

/-- Model of `Workspace.pov`: the point of view, `view_point + area.center`. -/
def pov (w : Workspace) : Point2d :=
  Point2d.add_points [w.view_point, w.area.center]

/-- Model of `Workspace.change_scale`. -/
noncomputable def change_scale (w : Workspace) (delta : ℝ) : Workspace :=
  { w with
    view_point := Point2d.from_draw_point ((DrawPoint.from_point_2d w.view_point).mul delta)
    scale := w.scale * delta
    circle_diff := w.circle_diff * delta }

/-- The four arrow-key moves of `view_point` in `Workspace.move_view`
(`view_point.y += 1 * scale * multiplier`, etc.), applied in source order. -/
noncomputable def pan_view (w : Workspace) (k : Keys) (m : ℕ) : Workspace :=
  let w1 := if k.up then
    { w with view_point := ⟨w.view_point.x, w.view_point.y + 1 * w.scale * m⟩ } else w
  let w2 := if k.down then
    { w1 with view_point := ⟨w1.view_point.x, w1.view_point.y - 1 * w1.scale * m⟩ } else w1
  let w3 := if k.left then
    { w2 with view_point := ⟨w2.view_point.x + 1 * w2.scale * m, w2.view_point.y⟩ } else w2
  if k.right then
    { w3 with view_point := ⟨w3.view_point.x - 1 * w3.scale * m, w3.view_point.y⟩ } else w3

/-- The four arrow-key moves of `image_offset` in `Workspace.adjust_view`
(`image_offset.y += 1 * multiplier`, etc.), applied in source order. -/
def pan_offset (w : Workspace) (k : Keys) (m : ℕ) : Workspace :=
  let w1 := if k.up then
    { w with image_offset := ⟨w.image_offset.x, w.image_offset.y + 1 * m⟩ } else w
  let w2 := if k.down then
    { w1 with image_offset := ⟨w1.image_offset.x, w1.image_offset.y - 1 * m⟩ } else w1
  let w3 := if k.left then
    { w2 with image_offset := ⟨w2.image_offset.x + 1 * m, w2.image_offset.y⟩ } else w2
  if k.right then
    { w3 with image_offset := ⟨w3.image_offset.x - 1 * m, w3.image_offset.y⟩ } else w3

/-- The MINUS / PLUS zoom keys shared by `move_view` and `adjust_view`:
`change_scale(0.99 ** multiplier)` and `change_scale(1.01 ** multiplier)`.
The multiplier is 1.0 or 5.0 (LSHIFT), modelled as a natural exponent. -/
noncomputable def zoom_keys (w : Workspace) (k : Keys) (m : ℕ) : Workspace :=
  let w1 := if k.minus then w.change_scale ((0.99 : ℝ) ^ m) else w
  if k.plus then w1.change_scale ((1.01 : ℝ) ^ m) else w1

/-- Model of `Workspace.move_view`. -/
noncomputable def move_view (w : Workspace) (k : Keys) : Workspace :=
  let m : ℕ := if k.lshift then 5 else 1
  (w.pan_view k m).zoom_keys k m

/-- The DrawPoint appended by a left click at `pos` in `Workspace.add_point`:
`DrawPoint.from_point_2d(to_local_coords(pos) + (-1)*view_point + (-1)*center)
  * (1 / scale)`. -/
noncomputable def clicked_point (w : Workspace) (pos : ℝ × ℝ) : DrawPoint :=
  (DrawPoint.from_point_2d
      (Point2d.add_points
        [w.area.to_local_coords pos, w.view_point.mul (-1), w.area.center.mul (-1)])).mul
    (1 / w.scale)

/-- One iteration of the event loop in `Workspace.add_point`. On a left click
the point is appended and then popped again when `points[-1].distance` exceeds
the radius, printing "Point out of range" (the returned Bool). On a right
click `points.pop()` raises IndexError when the list is empty, modelled as
`none`. -/
noncomputable def add_point_step (w : Workspace) (e : Event) :
    Option (Workspace × Bool) :=
  match e with
  | Event.mouseLeft pos =>
    let pts := w.points ++ [w.clicked_point pos]
    if (pts.getLast (by simp [pts])).distance > w.area.radius then
      some ({ w with points := pts.dropLast }, true)
    else
      some ({ w with points := pts }, false)
  | Event.mouseRight =>
    if w.points.isEmpty then none
    else some ({ w with points := w.points.dropLast }, false)
  | Event.keyReturn => some (w, false)

/-- Model of `Workspace.add_point` over the frame's event list; the Bool records
whether any "Point out of range" advisory was printed. -/
noncomputable def add_point : Workspace → List Event → Option (Workspace × Bool)
  | w, [] => some (w, false)
  | w, e :: es =>
    match w.add_point_step e with
    | none => none
    | some (w1, b1) =>
      match w1.add_point es with
      | none => none
      | some (w2, b2) => some (w2, b1 || b2)

/-- The key-driven part of `Workspace.adjust_view`. -/
noncomputable def adjust_keys (w : Workspace) (k : Keys) : Workspace :=
  let m : ℕ := if k.lshift then 5 else 1
  (w.pan_offset k m).zoom_keys k m

/-- The RETURN-key confirm block in `Workspace.adjust_view`:
`stage = MEASUREMENT; circle_diff = scale - 1.0; scale = 1.0`. -/
def confirm_step (w : Workspace) : Workspace :=
  { w with stage := Stage.MEASUREMENT, circle_diff := w.scale - 1, scale := 1 }

/-- Model of `Workspace.adjust_view`: key handling, then the confirm block once per
RETURN key-down event. -/
noncomputable def adjust_view (w : Workspace) (k : Keys) (events : List Event) : Workspace :=
  events.foldl
    (fun w e =>
      match e with
      | Event.keyReturn => w.confirm_step
      | _ => w)
    (w.adjust_keys k)

/-- Model of `Workspace.update`: one frame, dispatching on the stage. In ADJUSTMENT no
advisory is printed and no fault can occur. -/
noncomputable def update (w : Workspace) (k : Keys) (events : List Event) :
    Option (Workspace × Bool) :=
  if w.stage = Stage.ADJUSTMENT then some (w.adjust_view k events, false)
  else (w.move_view k).add_point events

/-- A run of frames, each with its key snapshot and event list. -/
noncomputable def run : Workspace → List (Keys × List Event) → Option Workspace
  | w, [] => some w
  | w, f :: fs =>
    match w.update f.1 f.2 with
    | none => none
    | some (w1, _) => w1.run fs

/-- The screen position at which `Workspace.draw` places the logical
(unscaled) point `q`: `pov() + scale * q`, the placement used for every
stored DrawPoint. -/
def screen_pos (w : Workspace) (q : Point2d) : Point2d :=
  Point2d.add_points [w.pov, q.mul w.scale]

end Workspace

/-- The back-projection of a stored point onto the unit sphere in
`Workspace.draw_points_and_distances`: divide the point by the radius and set
`z = sqrt(1 - x^2 - y^2)`. Python's `math.sqrt` raises ValueError on a
negative argument, modelled as `none`. -/
noncomputable def back_project (p : DrawPoint) (radius : ℝ) : Option Point3d :=
  let xy := (p.mul (1 / radius)).get_indexes
  if 1 - xy.1 ^ 2 - xy.2 ^ 2 < 0 then none
  else some ⟨xy.1, xy.2, Real.sqrt (1 - xy.1 ^ 2 - xy.2 ^ 2)⟩

/-- A concrete workspace: 20 px padding, a 680 px square area
(center (340, 340), radius 340), as built by `Workspace.__init__`. -/
noncomputable def w0 : Workspace := Workspace.init 20 680

/-- Model of `w0` after the alignment has been confirmed: MEASUREMENT stage, no points. -/
noncomputable def wM : Workspace := w0.confirm_step

/-! ### Helper lemmas about the polar / cartesian conversion -/

lemma complex_abs_mk (x y : ℝ) : Complex.abs ⟨x, y⟩ = hypot x y := by
  rw [Complex.abs_apply, Complex.normSq_mk, hypot]
  congr 1
  ring

lemma hypot_mul_cos (x y : ℝ) : hypot x y * Real.cos (atan2 y x) = x := by
  by_cases h : (⟨x, y⟩ : ℂ) = 0
  · have hx : x = 0 := by simpa using congrArg Complex.re h
    have hy : y = 0 := by simpa using congrArg Complex.im h
    simp [hx, hy, hypot]
  · rw [atan2, Complex.cos_arg h, ← complex_abs_mk x y]
    have habs : Complex.abs (⟨x, y⟩ : ℂ) ≠ 0 := by
      simpa using h
    field_simp

lemma hypot_mul_sin (x y : ℝ) : hypot x y * Real.sin (atan2 y x) = y := by
  rw [atan2, Complex.sin_arg, ← complex_abs_mk x y]
  by_cases h : Complex.abs (⟨x, y⟩ : ℂ) = 0
  · have h0 : (⟨x, y⟩ : ℂ) = 0 := by simpa using h
    have hy : y = 0 := by simpa using congrArg Complex.im h0
    simp [h, hy]
  · field_simp

lemma hypot_neg_snd (x y : ℝ) : hypot x (-y) = hypot x y := by
  simp [hypot]

lemma DrawPoint.from_indexes_mul_get_indexes (x y k : ℝ) :
    ((DrawPoint.from_indexes (x, y)).mul k).get_indexes = (k * x, k * y) := by
  have hc := hypot_mul_cos x (-y)
  have hs := hypot_mul_sin x (-y)
  rw [hypot_neg_snd] at hc hs
  simp only [DrawPoint.from_indexes, DrawPoint.mul, DrawPoint.get_indexes, Prod.mk.injEq]
  constructor
  · linear_combination k * hc
  · linear_combination (-k) * hs

lemma Point2d.from_draw_point_scaled (v : Point2d) (k : ℝ) :
    Point2d.from_draw_point ((DrawPoint.from_point_2d v).mul k) = ⟨k * v.x, k * v.y⟩ := by
  unfold Point2d.from_draw_point DrawPoint.from_point_2d
  rw [DrawPoint.from_indexes_mul_get_indexes]

/-! ### Helper lemmas about Point3d -/

lemma Point3d.sum_sq_of_unit {p : Point3d} (h : p.module = 1) :
    p.x ^ 2 + p.y ^ 2 + p.z ^ 2 = 1 := by
  exact Real.sqrt_eq_one.mp h

lemma Point3d.normalize_of_unit {p : Point3d} (h : p.module = 1) : p.normalize = p := by
  simp [Point3d.normalize, h]

lemma Point3d.module_pos {p : Point3d} (h : p ≠ ⟨0, 0, 0⟩) : 0 < p.module := by
  rw [Point3d.module]
  apply Real.sqrt_pos.mpr
  rcases lt_or_eq_of_le (by positivity : (0 : ℝ) ≤ p.x ^ 2 + p.y ^ 2 + p.z ^ 2) with hlt | heq
  · exact hlt
  · exfalso
    apply h
    have hx : p.x = 0 := by nlinarith [sq_nonneg p.x, sq_nonneg p.y, sq_nonneg p.z]
    have hy : p.y = 0 := by nlinarith [sq_nonneg p.x, sq_nonneg p.y, sq_nonneg p.z]
    have hz : p.z = 0 := by nlinarith [sq_nonneg p.x, sq_nonneg p.y, sq_nonneg p.z]
    exact Point3d.ext hx hy hz

lemma Point3d.normalize_smul {p : Point3d} {k : ℝ} (hk : 0 < k) (hp : p ≠ ⟨0, 0, 0⟩) :
    (Point3d.smul k p).normalize = p.normalize := by
  have hm : (Point3d.smul k p).module = k * p.module := by
    rw [Point3d.module, Point3d.module, Point3d.smul]
    rw [show (k * p.x) ^ 2 + (k * p.y) ^ 2 + (k * p.z) ^ 2
        = k ^ 2 * (p.x ^ 2 + p.y ^ 2 + p.z ^ 2) by ring]
    rw [Real.sqrt_mul (by positivity), Real.sqrt_sq hk.le]
  have hmp := Point3d.module_pos hp
  unfold Point3d.normalize
  rw [hm, Point3d.smul]
  ext
  · exact mul_div_mul_left _ _ hk.ne'
  · exact mul_div_mul_left _ _ hk.ne'
  · exact mul_div_mul_left _ _ hk.ne'

/-! ### Claim C1 -/

/-- C1: for unit-length inputs `p` and `q`, the angular distance
`get_angle_to` — computed by the chord formula `2*asin(dist(p,q)/2)` — lies
in `[0, π]` and equals `acos(dot(p,q))` (exactly, in the real-number model of
floating point). -/
theorem get_angle_to_matches_arccos_dot (p q : Point3d)
    (hp : p.module = 1) (hq : q.module = 1) :
    p.get_angle_to q ∈ Set.Icc 0 Real.pi ∧
    p.get_angle_to q = Real.arccos (p.dot q) := by
  have hps := Point3d.sum_sq_of_unit hp
  have hqs := Point3d.sum_sq_of_unit hq
  set c := p.dot q with hc
  have hlagrange : c ^ 2
      = (p.x ^ 2 + p.y ^ 2 + p.z ^ 2) * (q.x ^ 2 + q.y ^ 2 + q.z ^ 2)
        - ((p.x * q.y - p.y * q.x) ^ 2 + (p.x * q.z - p.z * q.x) ^ 2
          + (p.y * q.z - p.z * q.y) ^ 2) := by
    rw [hc]
    unfold Point3d.dot
    ring
  have hsq : c ^ 2 ≤ 1 := by
    rw [hlagrange, hps, hqs]
    nlinarith [sq_nonneg (p.x * q.y - p.y * q.x), sq_nonneg (p.x * q.z - p.z * q.x),
      sq_nonneg (p.y * q.z - p.z * q.y)]
  have hcl : -1 ≤ c := by nlinarith
  have hcu : c ≤ 1 := by nlinarith
  have hdist : p.distance q = Real.sqrt (2 - 2 * c) := by
    unfold Point3d.distance
    congr 1
    simp only [hc, Point3d.dot]
    linear_combination hps + hqs
  have harc0 := Real.arccos_nonneg c
  have harcpi := Real.arccos_le_pi c
  have hpi := Real.pi_pos
  have hcosθ : Real.cos (Real.arccos c) = c := Real.cos_arccos hcl hcu
  have hsin : Real.sin (Real.arccos c / 2) = Real.sqrt ((1 - c) / 2) := by
    rw [Real.sin_half_eq_sqrt harc0 (by linarith), hcosθ]
  have h4 : Real.sqrt 4 = 2 := by
    rw [show (4 : ℝ) = 2 ^ 2 by norm_num, Real.sqrt_sq (by norm_num : (0 : ℝ) ≤ 2)]
  have hhalf : Real.sqrt (2 - 2 * c) / 2 = Real.sqrt ((1 - c) / 2) := by
    rw [show (2 : ℝ) - 2 * c = 4 * ((1 - c) / 2) by ring,
      Real.sqrt_mul (by norm_num : (0 : ℝ) ≤ 4), h4]
    ring
  have key : p.get_angle_to q = Real.arccos c := by
    unfold Point3d.get_angle_to
    rw [Point3d.normalize_of_unit hp, Point3d.normalize_of_unit hq, hdist, hhalf, ← hsin,
      Real.arcsin_sin (by linarith) (by linarith)]
    ring
  exact ⟨key ▸ ⟨harc0, harcpi⟩, key⟩

/-- Witness for C1 at the concrete unit vector (1, 0, 0). -/
theorem get_angle_to_matches_arccos_dot_witness :
    ((⟨1, 0, 0⟩ : Point3d).module = 1 ∧ (⟨1, 0, 0⟩ : Point3d).module = 1) ∧
    ((⟨1, 0, 0⟩ : Point3d).get_angle_to ⟨1, 0, 0⟩ ∈ Set.Icc 0 Real.pi ∧
      (⟨1, 0, 0⟩ : Point3d).get_angle_to ⟨1, 0, 0⟩
        = Real.arccos ((⟨1, 0, 0⟩ : Point3d).dot ⟨1, 0, 0⟩)) := by
  have hm : (⟨1, 0, 0⟩ : Point3d).module = 1 := by
    simp [Point3d.module]
  exact ⟨⟨hm, hm⟩, get_angle_to_matches_arccos_dot _ _ hm hm⟩

/-! ### Claim C10 -/

/-- C10: `get_angle_to` normalizes both arguments internally, so for nonzero
inputs its result is invariant under scaling either argument by a positive
factor. -/
theorem get_angle_to_scale_invariant (p q : Point3d) (k m : ℝ)
    (hk : 0 < k) (hm : 0 < m) (hp : p ≠ ⟨0, 0, 0⟩) (hq : q ≠ ⟨0, 0, 0⟩) :
    (Point3d.smul k p).get_angle_to (Point3d.smul m q) = p.get_angle_to q := by
  unfold Point3d.get_angle_to
  rw [Point3d.normalize_smul hk hp, Point3d.normalize_smul hm hq]

/-- Witness for C10 at p = (1,0,0), q = (0,1,0), k = 2, m = 3. -/
theorem get_angle_to_scale_invariant_witness :
    ((0 : ℝ) < 2 ∧ (0 : ℝ) < 3 ∧ (⟨1, 0, 0⟩ : Point3d) ≠ ⟨0, 0, 0⟩ ∧
      (⟨0, 1, 0⟩ : Point3d) ≠ ⟨0, 0, 0⟩) ∧
    (Point3d.smul 2 ⟨1, 0, 0⟩).get_angle_to (Point3d.smul 3 ⟨0, 1, 0⟩)
      = (⟨1, 0, 0⟩ : Point3d).get_angle_to ⟨0, 1, 0⟩ := by
  have hp : (⟨1, 0, 0⟩ : Point3d) ≠ ⟨0, 0, 0⟩ := by
    intro h
    exact one_ne_zero (congrArg Point3d.x h)
  have hq : (⟨0, 1, 0⟩ : Point3d) ≠ ⟨0, 0, 0⟩ := by
    intro h
    exact one_ne_zero (congrArg Point3d.y h)
  exact ⟨⟨by norm_num, by norm_num, hp, hq⟩,
    get_angle_to_scale_invariant _ _ 2 3 (by norm_num) (by norm_num) hp hq⟩

/-! ### Helper lemmas about change_scale -/

lemma Workspace.change_scale_view_point (w : Workspace) (d : ℝ) :
    (w.change_scale d).view_point = ⟨d * w.view_point.x, d * w.view_point.y⟩ := by
  unfold Workspace.change_scale
  exact Point2d.from_draw_point_scaled w.view_point d

lemma Workspace.change_scale_scale (w : Workspace) (d : ℝ) :
    (w.change_scale d).scale = w.scale * d := rfl

/-! ### Claim C8 -/

/-- C8: `change_scale d` followed by `change_scale (1/d)` restores both the
scale and the view point exactly (hence within any floating-point tolerance),
for every `d > 0`. -/
theorem change_scale_roundtrip (w : Workspace) (d : ℝ) (hd : 0 < d) :
    ((w.change_scale d).change_scale (1 / d)).scale = w.scale ∧
    ((w.change_scale d).change_scale (1 / d)).view_point = w.view_point := by
  have hne : d ≠ 0 := hd.ne'
  constructor
  · rw [Workspace.change_scale_scale, Workspace.change_scale_scale]
    field_simp
  · rw [Workspace.change_scale_view_point, Workspace.change_scale_view_point]
    ext
    · show 1 / d * (d * w.view_point.x) = w.view_point.x
      field_simp
    · show 1 / d * (d * w.view_point.y) = w.view_point.y
      field_simp

/-- Witness for C8 at the freshly initialised workspace and d = 2. -/
theorem change_scale_roundtrip_witness :
    (0 : ℝ) < 2 ∧
    (((w0.change_scale 2).change_scale (1 / 2)).scale = w0.scale ∧
      ((w0.change_scale 2).change_scale (1 / 2)).view_point = w0.view_point) :=
  ⟨by norm_num, change_scale_roundtrip w0 2 (by norm_num)⟩

/-! ### Claim C3 -/

/-- A workspace whose view point has been panned to (1, 0). -/
noncomputable def wC3 : Workspace := { w0 with view_point := ⟨1, 0⟩ }

lemma Workspace.change_scale_area (w : Workspace) (d : ℝ) :
    (w.change_scale d).area = w.area := rfl

/-- Counterexample to C3 as stated: the pivot marks the screen position of
the logical origin, and that screen position is NOT left unchanged by
`change_scale` — with view point (1, 0) and delta 2 it moves from x = 341 to
x = 342. -/
theorem change_scale_moves_pivot_counterexample :
    (wC3.change_scale 2).screen_pos ⟨0, 0⟩ ≠ wC3.screen_pos ⟨0, 0⟩ := by
  intro h
  have hx := congrArg Point2d.x h
  rw [Workspace.screen_pos, Workspace.screen_pos, Workspace.pov, Workspace.pov,
    Workspace.change_scale_area, Workspace.change_scale_view_point] at hx
  simp only [Point2d.add_points, Point2d.mul, List.map_cons, List.map_nil, List.sum_cons,
    List.sum_nil, wC3, w0, Workspace.init, DrawBox.init] at hx
  norm_num at hx

/-- C3 amended: `change_scale delta` multiplies the scale by `delta` and maps
the view point, as a DrawPoint, to `delta` times itself (in cartesian form
`(delta*x, delta*y)`); every drawn screen position is scaled by `delta`
about the WIDGET CENTER, so the logical point currently displayed at the
widget center — not the one the pivot points at — keeps its screen
position. -/
theorem change_scale_zoom_about_widget_center (w : Workspace) (d : ℝ) :
    (w.change_scale d).scale = w.scale * d ∧
    (w.change_scale d).view_point = ⟨d * w.view_point.x, d * w.view_point.y⟩ ∧
    (∀ q : Point2d, (w.change_scale d).screen_pos q =
      Point2d.add_points [w.area.center,
        (Point2d.add_points [w.screen_pos q, w.area.center.mul (-1)]).mul d]) ∧
    (∀ q : Point2d, w.screen_pos q = w.area.center →
      (w.change_scale d).screen_pos q = w.area.center) := by
  have hvp := Workspace.change_scale_view_point w d
  have haffine : ∀ q : Point2d, (w.change_scale d).screen_pos q =
      Point2d.add_points [w.area.center,
        (Point2d.add_points [w.screen_pos q, w.area.center.mul (-1)]).mul d] := by
    intro q
    rw [Workspace.screen_pos, Workspace.screen_pos, Workspace.pov, Workspace.pov,
      Workspace.change_scale_area, hvp, Workspace.change_scale_scale]
    ext
    · simp only [Point2d.add_points, Point2d.mul, List.map_cons, List.map_nil,
        List.sum_cons, List.sum_nil]
      ring
    · simp only [Point2d.add_points, Point2d.mul, List.map_cons, List.map_nil,
        List.sum_cons, List.sum_nil]
      ring
  refine ⟨rfl, hvp, haffine, ?_⟩
  intro q hq
  rw [haffine q, hq]
  ext
  · simp only [Point2d.add_points, Point2d.mul, List.map_cons, List.map_nil,
      List.sum_cons, List.sum_nil]
    ring
  · simp only [Point2d.add_points, Point2d.mul, List.map_cons, List.map_nil,
      List.sum_cons, List.sum_nil]
    ring

/-! ### Claim C7 -/

/-- A workspace in MEASUREMENT stage holding one marked point. -/
noncomputable def wC7 : Workspace :=
  { w0 with stage := Stage.MEASUREMENT, points := [⟨0, 1⟩] }

/-- Counterexample to C7 as stated: loading a new image does NOT clear the
list of marked points and does NOT reset the stage to ADJUSTMENT. -/
theorem set_image_keeps_points_counterexample :
    ¬((wC7.set_image ()).points = [] ∧ (wC7.set_image ()).stage = Stage.ADJUSTMENT) := by
  intro h
  have h1 := h.1
  simp only [Workspace.set_image, wC7, w0, Workspace.init] at h1
  cases h1

/-- C7 amended: `set_image` stores the new image handle and resets the view
point to (0, 0) and the scale to 1.0, but leaves the points list, the stage,
and the image offset unchanged; in particular it neither clears the marked
points nor returns the stage to ADJUSTMENT. -/
theorem set_image_resets_view_only (w : Workspace) (img : Unit) :
    (w.set_image img).image = some img ∧
    (w.set_image img).view_point = ⟨0, 0⟩ ∧
    (w.set_image img).scale = 1 ∧
    (w.set_image img).points = w.points ∧
    (w.set_image img).stage = w.stage ∧
    (w.set_image img).image_offset = w.image_offset :=
  ⟨rfl, rfl, rfl, rfl, rfl, rfl⟩

/-! ### Claim C9, counterexample part -/

/-- Counterexample to C9 as stated: a direct zoom by delta = 0 is NOT
rejected — `change_scale 0` mutates the state and leaves `scale = 0`. -/
theorem change_scale_zero_accepted_counterexample :
    (w0.change_scale 0).scale = 0 ∧ w0.change_scale 0 ≠ w0 := by
  constructor
  · show w0.scale * 0 = 0
    ring
  · intro h
    have hs := congrArg Workspace.scale h
    rw [Workspace.change_scale_scale] at hs
    simp only [w0, Workspace.init] at hs
    norm_num at hs

/-! ### Helper lemmas about the state machine -/

lemma Workspace.pan_view_eq (w : Workspace) (k : Keys) (m : ℕ) :
    (w.pan_view k m).scale = w.scale ∧ (w.pan_view k m).stage = w.stage ∧
    (w.pan_view k m).points = w.points ∧ (w.pan_view k m).area = w.area := by
  rcases k with ⟨u, d, l, r, mi, pl, sh⟩
  cases u <;> cases d <;> cases l <;> cases r <;> exact ⟨rfl, rfl, rfl, rfl⟩

lemma Workspace.pan_offset_eq (w : Workspace) (k : Keys) (m : ℕ) :
    (w.pan_offset k m).scale = w.scale ∧ (w.pan_offset k m).stage = w.stage ∧
    (w.pan_offset k m).points = w.points ∧ (w.pan_offset k m).area = w.area := by
  rcases k with ⟨u, d, l, r, mi, pl, sh⟩
  cases u <;> cases d <;> cases l <;> cases r <;> exact ⟨rfl, rfl, rfl, rfl⟩

lemma Workspace.zoom_keys_eq (w : Workspace) (k : Keys) (m : ℕ) :
    (w.zoom_keys k m).stage = w.stage ∧ (w.zoom_keys k m).points = w.points ∧
    (w.zoom_keys k m).area = w.area := by
  rcases k with ⟨u, d, l, r, mi, pl, sh⟩
  cases mi <;> cases pl <;> exact ⟨rfl, rfl, rfl⟩

lemma Workspace.zoom_keys_scale_pos (w : Workspace) (k : Keys) (m : ℕ)
    (h : 0 < w.scale) : 0 < (w.zoom_keys k m).scale := by
  rcases k with ⟨u, d, l, r, mi, pl, sh⟩
  cases mi <;> cases pl
  · exact h
  · exact mul_pos h (pow_pos (by norm_num) m)
  · exact mul_pos h (pow_pos (by norm_num) m)
  · exact mul_pos (mul_pos h (pow_pos (by norm_num) m)) (pow_pos (by norm_num) m)

lemma Workspace.move_view_stage (w : Workspace) (k : Keys) :
    (w.move_view k).stage = w.stage := by
  unfold Workspace.move_view
  rw [(Workspace.zoom_keys_eq _ _ _).1, (Workspace.pan_view_eq _ _ _).2.1]

lemma Workspace.move_view_scale_pos (w : Workspace) (k : Keys)
    (h : 0 < w.scale) : 0 < (w.move_view k).scale := by
  unfold Workspace.move_view
  apply Workspace.zoom_keys_scale_pos
  rw [(Workspace.pan_view_eq _ _ _).1]
  exact h

lemma Workspace.adjust_keys_scale_pos (w : Workspace) (k : Keys)
    (h : 0 < w.scale) : 0 < (w.adjust_keys k).scale := by
  unfold Workspace.adjust_keys
  apply Workspace.zoom_keys_scale_pos
  rw [(Workspace.pan_offset_eq _ _ _).1]
  exact h

lemma Workspace.move_view_noKeys (w : Workspace) : w.move_view noKeys = w := rfl

lemma Workspace.adjust_keys_noKeys (w : Workspace) : w.adjust_keys noKeys = w := rfl

lemma Workspace.add_point_step_eq (w : Workspace) (e : Event) (w1 : Workspace) (b : Bool)
    (h : w.add_point_step e = some (w1, b)) :
    w1.scale = w.scale ∧ w1.stage = w.stage := by
  cases e with
  | mouseLeft pos =>
    simp only [Workspace.add_point_step] at h
    split at h <;> (cases h; exact ⟨rfl, rfl⟩)
  | mouseRight =>
    simp only [Workspace.add_point_step] at h
    split at h
    · cases h
    · cases h
      exact ⟨rfl, rfl⟩
  | keyReturn =>
    simp only [Workspace.add_point_step] at h
    cases h
    exact ⟨rfl, rfl⟩

lemma Workspace.add_point_eq (w : Workspace) (events : List Event) (w2 : Workspace) (b : Bool)
    (h : w.add_point events = some (w2, b)) :
    w2.scale = w.scale ∧ w2.stage = w.stage := by
  induction events generalizing w w2 b with
  | nil =>
    simp only [Workspace.add_point] at h
    cases h
    exact ⟨rfl, rfl⟩
  | cons e es ih =>
    simp only [Workspace.add_point] at h
    split at h
    · cases h
    · rename_i w1 b1 heq
      split at h
      · cases h
      · rename_i w2a b2 heq2
        cases h
        obtain ⟨hs1, hst1⟩ := Workspace.add_point_step_eq w e w1 b1 heq
        obtain ⟨hs2, hst2⟩ := ih w1 _ _ heq2
        exact ⟨hs2.trans hs1, hst2.trans hst1⟩

lemma Workspace.adjust_view_scale_pos (w : Workspace) (k : Keys) (events : List Event)
    (h : 0 < w.scale) : 0 < (w.adjust_view k events).scale := by
  unfold Workspace.adjust_view
  have h1 : 0 < (w.adjust_keys k).scale := Workspace.adjust_keys_scale_pos w k h
  revert h1
  generalize w.adjust_keys k = w1
  induction events generalizing w1 with
  | nil =>
    intro h1
    simpa using h1
  | cons e es ih =>
    intro h1
    rw [List.foldl_cons]
    apply ih
    cases e
    · exact h1
    · exact h1
    · exact one_pos

lemma Workspace.update_stage_measurement (w : Workspace) (k : Keys) (events : List Event)
    (w2 : Workspace) (b : Bool) (hs : w.stage = Stage.MEASUREMENT)
    (h : w.update k events = some (w2, b)) : w2.stage = Stage.MEASUREMENT := by
  unfold Workspace.update at h
  rw [if_neg (by rw [hs]; exact fun hh => Stage.noConfusion hh)] at h
  have := (Workspace.add_point_eq _ _ _ _ h).2
  rw [this, Workspace.move_view_stage, hs]

lemma Workspace.run_stage_measurement (frames : List (Keys × List Event)) :
    ∀ w w2 : Workspace, w.stage = Stage.MEASUREMENT → w.run frames = some w2 →
      w2.stage = Stage.MEASUREMENT := by
  induction frames with
  | nil =>
    intro w w2 hs h
    simp only [Workspace.run] at h
    cases h
    exact hs
  | cons f fs ih =>
    intro w w2 hs h
    simp only [Workspace.run] at h
    split at h
    · cases h
    · rename_i w1 b heq
      exact ih w1 w2 (Workspace.update_stage_measurement w f.1 f.2 w1 b hs heq) h

/-! ### Claim C6 -/

/-- C6: in ADJUSTMENT (where `circle_diff` is 0), a confirm intent performs
the confirm block: stage becomes MEASUREMENT, scale resets to 1.0 while the
old scale is folded into `circle_diff`, so the image's effective on-screen
factor `scale + circle_diff` (and its placement data `view_point`,
`image_offset`) is preserved; afterwards no sequence of updates ever returns
the stage to ADJUSTMENT. -/
theorem confirm_alignment_one_way (w : Workspace)
    (hs : w.stage = Stage.ADJUSTMENT) (hd : w.circle_diff = 0) :
    w.update noKeys [Event.keyReturn] = some (w.confirm_step, false) ∧
    w.confirm_step.stage = Stage.MEASUREMENT ∧
    w.confirm_step.scale = 1 ∧
    w.confirm_step.scale + w.confirm_step.circle_diff = w.scale + w.circle_diff ∧
    w.confirm_step.view_point = w.view_point ∧
    w.confirm_step.image_offset = w.image_offset ∧
    ∀ frames w2, w.confirm_step.run frames = some w2 → w2.stage = Stage.MEASUREMENT := by
  refine ⟨?_, rfl, rfl, ?_, rfl, rfl, ?_⟩
  · unfold Workspace.update
    rw [if_pos hs]
    rfl
  · show (1 : ℝ) + (w.scale - 1) = w.scale + w.circle_diff
    rw [hd]
    ring
  · intro frames w2 h
    exact Workspace.run_stage_measurement frames w.confirm_step w2 rfl h

/-- Witness for C6 at the freshly initialised workspace. -/
theorem confirm_alignment_one_way_witness :
    (w0.stage = Stage.ADJUSTMENT ∧ w0.circle_diff = 0) ∧
    (w0.update noKeys [Event.keyReturn] = some (w0.confirm_step, false) ∧
      w0.confirm_step.stage = Stage.MEASUREMENT ∧
      w0.confirm_step.scale = 1 ∧
      w0.confirm_step.scale + w0.confirm_step.circle_diff = w0.scale + w0.circle_diff ∧
      w0.confirm_step.view_point = w0.view_point ∧
      w0.confirm_step.image_offset = w0.image_offset ∧
      ∀ frames w2, w0.confirm_step.run frames = some w2 → w2.stage = Stage.MEASUREMENT) :=
  ⟨⟨rfl, rfl⟩, confirm_alignment_one_way w0 rfl rfl⟩

/-! ### Claim C9, amended part -/

/-- C9 amended: `change_scale` itself applies any delta without validation
(see the counterexample), but every zoom intent the program issues uses a
delta of the form 0.99^m or 1.01^m, which is positive, so `scale > 0` is
preserved by every frame update in either stage. -/
theorem update_preserves_scale_pos (w : Workspace) (k : Keys) (events : List Event)
    (w2 : Workspace) (b : Bool) (h0 : 0 < w.scale)
    (h : w.update k events = some (w2, b)) : 0 < w2.scale := by
  unfold Workspace.update at h
  split at h
  · cases h
    exact Workspace.adjust_view_scale_pos w k events h0
  · rw [(Workspace.add_point_eq _ _ _ _ h).1]
    exact Workspace.move_view_scale_pos w k h0

/-! ### Claim C2 -/

/-- C2: in MEASUREMENT stage, an add-point intent at pixel `pos` appends the
DrawPoint of `toLocal(pos) - view_point - center` with its distance divided
by the scale when that stored distance is at most the radius (the boundary
case `distance = radius` is accepted), and otherwise leaves the points list
unchanged and only reports the "point out of range" advisory. -/
theorem add_point_appends_iff_within_radius (w : Workspace) (pos : ℝ × ℝ)
    (hs : w.stage = Stage.MEASUREMENT) :
    ((w.clicked_point pos).distance ≤ w.area.radius →
      w.update noKeys [Event.mouseLeft pos] =
        some ({ w with points := w.points ++ [w.clicked_point pos] }, false)) ∧
    (w.area.radius < (w.clicked_point pos).distance →
      w.update noKeys [Event.mouseLeft pos] = some (w, true)) := by
  have hbase : w.update noKeys [Event.mouseLeft pos]
      = w.add_point [Event.mouseLeft pos] := by
    unfold Workspace.update
    rw [if_neg (by rw [hs]; exact fun hh => Stage.noConfusion hh),
      Workspace.move_view_noKeys]
  constructor
  · intro hle
    rw [hbase]
    simp only [Workspace.add_point, Workspace.add_point_step, List.getLast_concat]
    rw [if_neg (not_lt.mpr hle)]
    rfl
  · intro hgt
    rw [hbase]
    simp only [Workspace.add_point, Workspace.add_point_step, List.getLast_concat]
    rw [if_pos hgt, List.dropLast_concat]
    rfl

/-- Witness for C2: clicking the exact widget centre of the fresh workspace
(in MEASUREMENT stage) gives a stored distance of 0 ≤ radius = 340, so the
point is appended without advisory. -/
theorem add_point_appends_iff_within_radius_witness :
    wM.stage = Stage.MEASUREMENT ∧
    (((wM.clicked_point (360, 360)).distance ≤ wM.area.radius →
      wM.update noKeys [Event.mouseLeft (360, 360)] =
        some ({ wM with points := wM.points ++ [wM.clicked_point (360, 360)] }, false)) ∧
    (wM.area.radius < (wM.clicked_point (360, 360)).distance →
      wM.update noKeys [Event.mouseLeft (360, 360)] = some (wM, true))) :=
  ⟨rfl, add_point_appends_iff_within_radius wM (360, 360) rfl⟩

/-! ### Claim C4 -/

/-- C4 shows a code bug: in MEASUREMENT stage with an empty points list, a
remove-point intent executes `self.points.pop()` on the empty list, which
raises IndexError in Python (modelled as `none`) instead of being the no-op
the specification requires. -/
theorem remove_point_on_empty_raises :
    wM.update noKeys [Event.mouseRight] = none := by
  unfold Workspace.update
  rw [if_neg (fun hh => Stage.noConfusion hh), Workspace.move_view_noKeys]
  rfl

/-! ### Claim C5 -/

/-- C5 shows a code bug: the back-projection in
`draw_points_and_distances` computes `z = sqrt(1 - x^2 - y^2)` with no
clamping, so a stored point whose disk coordinates satisfy `x^2 + y^2 > 1`
(here a point at distance 2 with radius 1) makes `math.sqrt` raise
ValueError (modelled as `none`) instead of clamping to
`sqrt(max(0, 1 - x^2 - y^2))` as the specification requires. -/
theorem back_project_fails_outside_disk : back_project ⟨0, 2⟩ 1 = none := by
  have hcond : (1 : ℝ) - (2 * (1 / 1) * Real.cos 0) ^ 2
      - (-(2 * (1 / 1)) * Real.sin 0) ^ 2 < 0 := by
    rw [Real.cos_zero, Real.sin_zero]
    norm_num
  simp only [back_project, DrawPoint.mul, DrawPoint.get_indexes]
  rw [if_pos hcond]

/-- Witness for the amended C9 at the fresh workspace with an empty frame. -/
theorem update_preserves_scale_pos_witness :
    ((0 : ℝ) < w0.scale ∧ w0.update noKeys [] = some (w0, false)) ∧ 0 < w0.scale := by
  have h0 : (0 : ℝ) < w0.scale := one_pos
  have hupd : w0.update noKeys [] = some (w0, false) := by
    unfold Workspace.update
    rw [if_pos (show w0.stage = Stage.ADJUSTMENT from rfl)]
    rfl
  exact ⟨⟨h0, hupd⟩, update_preserves_scale_pos w0 noKeys [] w0 false h0 hupd⟩
